import Mathlib

/-!
Verification development for the qsis repository: a terminal visualization of
special-relativity kinematics.  The computational core (src/src/relativity/special.rs)
and the interactive sampling loop (src/src/tui/mod.rs) are embedded shallowly:
f64 arithmetic is idealized as exact real arithmetic, with a separate
special-value model where IEEE infinity/NaN behaviour is itself the property
under study.
-/

namespace QSIS

/-- Speed of light, `pub const C: f64 = 299_792_458.0` (src/src/relativity/special.rs). -/
def C : ℝ := 299792458

/-- Embeds `lorentz_factor(v) = 1.0 / (1.0 - (v * v) / (C * C)).sqrt()`
(src/src/relativity/special.rs). -/
noncomputable def lorentz_factor (v : ℝ) : ℝ :=
  1 / Real.sqrt (1 - (v * v) / (C * C))

/-- Embeds `length_contraction(proper_length, v) = proper_length / lorentz_factor(v)`
(src/src/relativity/special.rs). -/
noncomputable def length_contraction (proper_length v : ℝ) : ℝ :=
  proper_length / lorentz_factor v

/-- Modelled from the spec: no named `time_dilation` function exists under src/
(the dilated time is computed inline as `proper_time * gamma` in `snapshot`,
src/src/tui/mod.rs); the spec defines `time_dilation(proper_time, gamma)` as
returning `proper_time * gamma`. -/
def time_dilation (proper_time gamma : ℝ) : ℝ :=
  proper_time * gamma

lemma C_pos : (0:ℝ) < C := by norm_num [C]

lemma C_ne_zero : (C:ℝ) ≠ 0 := ne_of_gt C_pos

/-- Scaling a fraction by `C` reduces the Lorentz-factor argument to the fraction. -/
lemma lorentz_factor_frac (x : ℝ) :
    lorentz_factor (x * C) = 1 / Real.sqrt (1 - x ^ 2) := by
  unfold lorentz_factor
  have hC := C_ne_zero
  have h : (x * C) * (x * C) / (C * C) = x ^ 2 := by
    field_simp
    ring
  rw [h]

lemma lorentz_factor_zero : lorentz_factor 0 = 1 := by
  unfold lorentz_factor
  norm_num

/-- At `v = 0.6 * C` the Lorentz factor is exactly `1.25` in exact arithmetic. -/
lemma lorentz_factor_point_six : lorentz_factor (0.6 * C) = 1.25 := by
  rw [lorentz_factor_frac]
  have h1 : (1 : ℝ) - (0.6:ℝ) ^ 2 = 0.64 := by norm_num
  rw [h1]
  have h2 : Real.sqrt 0.64 = 0.8 := by
    rw [show (0.64:ℝ) = 0.8 ^ 2 by norm_num]
    exact Real.sqrt_sq (by norm_num)
  rw [h2]
  norm_num

/-- Embeds `pub struct DataPoint` (src/src/metrics.rs). -/
structure DataPoint where
  velocity_fraction : ℝ
  gamma : ℝ
  proper_time : ℝ
  dilated_time : ℝ
  proper_length : ℝ
  contracted_length : ℝ

/-- Embeds `fn snapshot(velocity_fraction, proper_time, proper_length) -> DataPoint`
(src/src/tui/mod.rs). -/
noncomputable def snapshot (velocity_fraction proper_time proper_length : ℝ) :
    DataPoint :=
  let v := velocity_fraction * C
  let gamma := lorentz_factor v
  let dilated_time := proper_time * gamma
  let contracted_length := length_contraction proper_length v
  { velocity_fraction := velocity_fraction
    gamma := gamma
    proper_time := proper_time
    dilated_time := dilated_time
    proper_length := proper_length
    contracted_length := contracted_length }

/-- Embeds `enum ChartMode` (src/src/tui/mod.rs): which dataset(s) to show in the chart. -/
inductive ChartMode
  | All
  | TimeDilation
  | LengthContraction
  | LorentzFactor
deriving DecidableEq

/-- The input-event categories handled by the key-event match in `start`
(src/src/tui/mod.rs): `Left`, `Right`, the four display-mode keys
`a`/`t`/`l`/`g` (tagged with the selected mode), and the catch-all `_ => {}`
arm for any other key.  The quit key leaves the loop and is modelled by the
event stream ending. -/
inductive InputEvent
  | left
  | right
  | switchMode (m : ChartMode)
  | other

/-- The mutable simulation state owned by the interactive loop in `start`
(src/src/tui/mod.rs): current velocity fraction, the append-only sample log,
and the current chart mode. -/
structure SimState where
  velocity_fraction : ℝ
  log : List DataPoint
  chart_mode : ChartMode

/-- Embeds `let proper_time: f64 = 10.0;` (src/src/tui/mod.rs). -/
def proper_time : ℝ := 10

/-- Embeds `let proper_length: f64 = 100.0;` (src/src/tui/mod.rs). -/
def proper_length : ℝ := 100

/-- The state of `start` just before the main loop: velocity fraction `0.0`,
chart mode `All`, and the one initial sample pushed so the chart is not empty
(src/src/tui/mod.rs, line 45). -/
noncomputable def initState : SimState :=
  { velocity_fraction := 0
    log := [snapshot 0 proper_time proper_length]
    chart_mode := ChartMode.All }

/-- One iteration of the key-event match in `start` (src/src/tui/mod.rs,
lines 176-201): `Left` clamps the decrement at `0.0` and pushes a snapshot,
`Right` clamps the increment at `0.99` and pushes a snapshot, the display keys
only set `chart_mode`, and any other key does nothing. -/
noncomputable def step (s : SimState) (e : InputEvent) : SimState :=
  match e with
  | .left =>
      let v := max (s.velocity_fraction - 0.01) 0
      { s with velocity_fraction := v
               log := s.log ++ [snapshot v proper_time proper_length] }
  | .right =>
      let v := min (s.velocity_fraction + 0.01) 0.99
      { s with velocity_fraction := v
               log := s.log ++ [snapshot v proper_time proper_length] }
  | .switchMode m => { s with chart_mode := m }
  | .other => s

/-- The interactive loop of `start` run on a finite stream of key events. -/
noncomputable def run (es : List InputEvent) : SimState :=
  es.foldl step initState

/-- Modelled from the spec: no scripted mode exists under src/ (the sources
only implement the interactive loop).  Per the spec, scripted mode "accepts an
explicit ordered list of velocity fractions supplied by the caller; each value
outside `[0, 1)` is silently discarded (not sampled, not erroring); valid
values are sampled in the order given". -/
noncomputable def scripted_run : List ℝ → List DataPoint
  | [] => []
  | v :: rest =>
      if 0 ≤ v ∧ v < 1 then
        snapshot v proper_time proper_length :: scripted_run rest
      else
        scripted_run rest

/-- An idealized IEEE-754 double: a finite exact real value, an infinity, or
NaN.  Rounding is not modelled; only the special-value propagation relevant to
`lorentz_factor` outside its domain. -/
inductive FVal
  | fin (x : ℝ)
  | inf
  | nan

/-- IEEE square root on the idealized doubles: the square root of a negative
finite value is NaN, as in `f64::sqrt`. -/
noncomputable def fsqrt : FVal → FVal
  | .fin x => if x < 0 then .nan else .fin (Real.sqrt x)
  | .inf => .inf
  | .nan => .nan

/-- IEEE reciprocal on the idealized doubles: `1.0 / 0.0` is infinity,
`1.0 / inf` is zero, and NaN propagates, as in f64 division. -/
noncomputable def frecip : FVal → FVal
  | .fin x => if x = 0 then .inf else .fin (1 / x)
  | .inf => .fin 0
  | .nan => .nan

/-- The function `lorentz_factor` re-read over the idealized doubles, keeping the source
expression `1.0 / (1.0 - (v * v) / (C * C)).sqrt()` but tracking the IEEE
special values produced by `sqrt` and by the outer division. -/
noncomputable def lorentz_factorF (v : ℝ) : FVal :=
  frecip (fsqrt (.fin (1 - (v * v) / (C * C))))

/-- C7: for every velocity `v`, `lorentz_factor v` equals
`1 / sqrt (1 - (v/c)^2)` with `c` the speed-of-light constant `299792458`;
in particular `lorentz_factor (0.6 * C)` is exactly `1.25`. -/
theorem lorentz_factor_formula :
    (∀ v : ℝ, lorentz_factor v = 1 / Real.sqrt (1 - (v / C) ^ 2)) ∧
    C = 299792458 ∧
    lorentz_factor (0.6 * C) = 1.25 := by
  refine ⟨fun v => ?_, rfl, lorentz_factor_point_six⟩
  unfold lorentz_factor
  have h : (v / C) ^ 2 = (v * v) / (C * C) := by
    rw [div_pow, pow_two, pow_two]
  rw [h]

/-- C9: exact identity postconditions of the kinematics functions:
`lorentz_factor 0 = 1`, `time_dilation T 1 = T`, `length_contraction L 0 = L`,
and `length_contraction 100 (0.6 * C) = 80`. -/
theorem kinematics_exact_identities :
    lorentz_factor 0 = 1 ∧
    (∀ T : ℝ, time_dilation T 1 = T) ∧
    (∀ L : ℝ, length_contraction L 0 = L) ∧
    length_contraction 100 (0.6 * C) = 80 := by
  refine ⟨lorentz_factor_zero, fun T => mul_one T, fun L => ?_, ?_⟩
  · unfold length_contraction
    rw [lorentz_factor_zero, div_one]
  · unfold length_contraction
    rw [lorentz_factor_point_six]
    norm_num

/-- C8: a switch-display event (selecting All, Time, Length or Gamma) leaves
the sample log and the current velocity fraction unchanged; it only sets the
display mode, and never appends a sample. -/
theorem switch_mode_only_changes_display :
    ∀ (s : SimState) (m : ChartMode),
      (step s (.switchMode m)).log = s.log ∧
      (step s (.switchMode m)).velocity_fraction = s.velocity_fraction ∧
      (step s (.switchMode m)).chart_mode = m :=
  fun _ _ => ⟨rfl, rfl, rfl⟩

/-- C10: every increase or decrease event appends exactly one sample, even at
a clamp boundary; in particular a decrease at the initial state leaves the
velocity fraction at `0` and the log holds two consecutive identical samples. -/
theorem step_appends_exactly_one_sample :
    (∀ s : SimState, (step s .left).log.length = s.log.length + 1) ∧
    (∀ s : SimState, (step s .right).log.length = s.log.length + 1) ∧
    (step initState .left).velocity_fraction = 0 ∧
    (step initState .left).log =
      [snapshot 0 proper_time proper_length,
       snapshot 0 proper_time proper_length] := by
  refine ⟨fun s => ?_, fun s => ?_, ?_, ?_⟩
  · simp [step]
  · simp [step]
  · simp only [step, initState]
    norm_num [max_def]
  · simp only [step, initState]
    norm_num [max_def]

/-- C1: the interactive loop starts with exactly one sample at velocity
fraction `0`; five increase events followed by two decrease events end at
velocity fraction `0.03` with exactly `8` samples logged. -/
theorem interactive_five_up_two_down :
    (run []).log = [snapshot 0 proper_time proper_length] ∧
    (run [.right, .right, .right, .right, .right, .left, .left]).velocity_fraction
      = 0.03 ∧
    (run [.right, .right, .right, .right, .right, .left, .left]).log.length = 8 := by
  refine ⟨rfl, ?_, ?_⟩
  · norm_num [run, List.foldl, step, initState, min_def, max_def]
  · norm_num [run, List.foldl, step, initState, min_def, max_def]

/-- Round-trip consistency of one sample: its recorded `gamma` is the Lorentz
factor of its recorded velocity, and the dilated/contracted fields follow the
two formulas. -/
def consistent (dp : DataPoint) : Prop :=
  dp.gamma = lorentz_factor (dp.velocity_fraction * C) ∧
  dp.dilated_time = dp.proper_time * dp.gamma ∧
  dp.contracted_length = dp.proper_length / dp.gamma

lemma snapshot_consistent (vf t l : ℝ) : consistent (snapshot vf t l) :=
  ⟨rfl, rfl, rfl⟩

lemma foldl_log_consistent :
    ∀ (es : List InputEvent) (s : SimState),
      (∀ dp ∈ s.log, consistent dp) →
      ∀ dp ∈ (es.foldl step s).log, consistent dp := by
  intro es
  induction es with
  | nil => intro s h; exact h
  | cons e rest ih =>
      intro s h
      apply ih
      intro dp hdp
      cases e with
      | left =>
          rcases List.mem_append.1 hdp with h1 | h2
          · exact h dp h1
          · rw [List.mem_singleton.1 h2]
            exact snapshot_consistent _ _ _
      | right =>
          rcases List.mem_append.1 hdp with h1 | h2
          · exact h dp h1
          · rw [List.mem_singleton.1 h2]
            exact snapshot_consistent _ _ _
      | switchMode m => exact h dp hdp
      | other => exact h dp hdp

/-- C4: every sample ever appended to the log satisfies
`dilated_time = proper_time * gamma` and
`contracted_length = proper_length / gamma`, where `gamma` is the sample's
recorded Lorentz factor `lorentz_factor (velocity_fraction * C)`. -/
theorem log_round_trip_consistency :
    ∀ (es : List InputEvent) (dp : DataPoint), dp ∈ (run es).log →
      dp.gamma = lorentz_factor (dp.velocity_fraction * C) ∧
      dp.dilated_time = dp.proper_time * dp.gamma ∧
      dp.contracted_length = dp.proper_length / dp.gamma := by
  intro es dp hdp
  refine foldl_log_consistent es initState ?_ dp hdp
  intro dp' h'
  rw [show initState.log = [snapshot 0 proper_time proper_length] from rfl,
    List.mem_singleton] at h'
  rw [h']
  exact snapshot_consistent _ _ _

/-- Witness for C4 at the empty event stream and the initial sample. -/
theorem log_round_trip_consistency_witness :
    (snapshot 0 proper_time proper_length).gamma
      = lorentz_factor ((snapshot 0 proper_time proper_length).velocity_fraction * C) ∧
    (snapshot 0 proper_time proper_length).dilated_time
      = (snapshot 0 proper_time proper_length).proper_time
        * (snapshot 0 proper_time proper_length).gamma ∧
    (snapshot 0 proper_time proper_length).contracted_length
      = (snapshot 0 proper_time proper_length).proper_length
        * (snapshot 0 proper_time proper_length).gamma⁻¹ := by
  have h := log_round_trip_consistency [] (snapshot 0 proper_time proper_length)
    (by simp [run, List.foldl, initState])
  exact ⟨h.1, h.2.1, by rw [h.2.2, div_eq_mul_inv]⟩

lemma foldl_velocity_bounds :
    ∀ (es : List InputEvent) (s : SimState),
      0 ≤ s.velocity_fraction → s.velocity_fraction ≤ 0.99 →
      0 ≤ (es.foldl step s).velocity_fraction ∧
        (es.foldl step s).velocity_fraction ≤ 0.99 := by
  intro es
  induction es with
  | nil => intro s h0 h1; exact ⟨h0, h1⟩
  | cons e rest ih =>
      intro s h0 h1
      refine ih (step s e) ?_ ?_ <;> cases e
      · exact le_max_right _ _
      · exact le_min (by linarith) (by norm_num)
      · exact h0
      · exact h0
      · exact max_le (by linarith) (by norm_num)
      · exact min_le_right _ _
      · exact h1
      · exact h1

/-- C6: starting from velocity fraction `0`, after any sequence of increase,
decrease, display-switch and other events, the velocity fraction lies in
`[0, 0.99]`, so the speed passed to the kinematics core satisfies `|v| < C`. -/
theorem velocity_fraction_invariant :
    ∀ es : List InputEvent,
      0 ≤ (run es).velocity_fraction ∧
      (run es).velocity_fraction ≤ 0.99 ∧
      |(run es).velocity_fraction * C| < C := by
  intro es
  simp only [run]
  obtain ⟨h0, h1⟩ :=
    foldl_velocity_bounds es initState (le_refl 0) (by norm_num [initState])
  refine ⟨h0, h1, ?_⟩
  rw [abs_of_nonneg (mul_nonneg h0 C_pos.le)]
  calc (List.foldl step initState es).velocity_fraction * C ≤ 0.99 * C :=
        mul_le_mul_of_nonneg_right h1 C_pos.le
    _ < 1 * C := by
        have := C_pos
        nlinarith
    _ = C := one_mul C

/-- C3: on velocity fractions in `[0, 1)`, the Lorentz factor of the scaled
speed is at least `1` and strictly increasing in the fraction. -/
theorem lorentz_factor_ge_one_and_strict_increase :
    (∀ x : ℝ, 0 ≤ x → x < 1 → 1 ≤ lorentz_factor (x * C)) ∧
    (∀ x y : ℝ, 0 ≤ x → y < 1 → x < y →
      lorentz_factor (x * C) < lorentz_factor (y * C)) := by
  constructor
  · intro x h0 h1
    rw [lorentz_factor_frac]
    have hx2 : x ^ 2 < 1 := by nlinarith
    have hpos : 0 < Real.sqrt (1 - x ^ 2) := Real.sqrt_pos.2 (by linarith)
    rw [le_div_iff₀ hpos, one_mul]
    exact Real.sqrt_le_one.2 (by nlinarith)
  · intro x y h0 h1 hxy
    rw [lorentz_factor_frac, lorentz_factor_frac]
    have hy2 : y ^ 2 < 1 := by nlinarith
    have hlt : 1 - y ^ 2 < 1 - x ^ 2 := by nlinarith
    have hsq : Real.sqrt (1 - y ^ 2) < Real.sqrt (1 - x ^ 2) :=
      Real.sqrt_lt_sqrt (by linarith) hlt
    have hypos : 0 < Real.sqrt (1 - y ^ 2) :=
      Real.sqrt_pos.2 (by nlinarith)
    exact one_div_lt_one_div_of_lt hypos hsq

/-- Witness for C3 at the fractions `0` and `0.6`. -/
theorem lorentz_factor_ge_one_and_strict_increase_witness :
    1 ≤ lorentz_factor (0 * C) ∧
    lorentz_factor (0 * C) < lorentz_factor (0.6 * C) :=
  ⟨lorentz_factor_ge_one_and_strict_increase.1 0 (by norm_num) (by norm_num),
   lorentz_factor_ge_one_and_strict_increase.2 0 0.6 (by norm_num) (by norm_num)
     (by norm_num)⟩

/-- C5: in the idealized-double model, `lorentz_factor` is total: every speed
with `|v| < C` yields the finite value `lorentz_factor v`, and every speed
with `|v| ≥ C` yields infinity or NaN rather than an error. -/
theorem lorentz_factorF_total_on_doubles :
    ∀ v : ℝ,
      (|v| < C → lorentz_factorF v = FVal.fin (lorentz_factor v)) ∧
      (C ≤ |v| → lorentz_factorF v = FVal.inf ∨ lorentz_factorF v = FVal.nan) := by
  intro v
  have hCC : (0:ℝ) < C * C := mul_pos C_pos C_pos
  constructor
  · intro h
    have hvv : v * v < C * C := by
      calc v * v = |v| * |v| := (abs_mul_abs_self v).symm
        _ < C * C := mul_self_lt_mul_self (abs_nonneg v) h
    have harg : 0 < 1 - (v * v) / (C * C) := by
      have : (v * v) / (C * C) < 1 := (div_lt_one hCC).2 hvv
      linarith
    rw [lorentz_factorF]
    simp only [fsqrt]
    rw [if_neg (not_lt.2 harg.le)]
    simp only [frecip]
    rw [if_neg (ne_of_gt (Real.sqrt_pos.2 harg))]
    rw [lorentz_factor]
  · intro h
    have hvv : C * C ≤ v * v := by
      calc C * C ≤ |v| * |v| := mul_self_le_mul_self C_pos.le h
        _ = v * v := abs_mul_abs_self v
    have harg : 1 - (v * v) / (C * C) ≤ 0 := by
      have : 1 ≤ (v * v) / (C * C) := (one_le_div hCC).2 hvv
      linarith
    rw [lorentz_factorF]
    simp only [fsqrt]
    rcases harg.lt_or_eq with hlt | heq
    · rw [if_pos hlt]
      right
      rfl
    · rw [heq]
      left
      simp [frecip]

/-- Witness for C5 at `v = 0` (inside the domain) and `v = C` (on the
light-speed boundary). -/
theorem lorentz_factorF_total_on_doubles_witness :
    lorentz_factorF 0 = FVal.fin (lorentz_factor 0) ∧
    (lorentz_factorF C = FVal.inf ∨ lorentz_factorF C = FVal.nan) :=
  ⟨(lorentz_factorF_total_on_doubles 0).1 (by rw [abs_zero]; exact C_pos),
   (lorentz_factorF_total_on_doubles C).2 (le_of_eq (abs_of_nonneg C_pos.le).symm)⟩

/-- C2: scripted mode silently discards every velocity fraction outside
`[0, 1)` and samples every in-range value in the order given; on
`[0.3, 1.5, -0.2, 0.9]` it produces exactly the two samples for `0.3` and
`0.9`, in that order. -/
theorem scripted_mode_filters_and_orders :
    (∀ (v : ℝ) (rest : List ℝ), ¬(0 ≤ v ∧ v < 1) →
      scripted_run (v :: rest) = scripted_run rest) ∧
    (∀ (v : ℝ) (rest : List ℝ), 0 ≤ v → v < 1 →
      scripted_run (v :: rest)
        = snapshot v proper_time proper_length :: scripted_run rest) ∧
    scripted_run [0.3, 1.5, -0.2, 0.9]
      = [snapshot 0.3 proper_time proper_length,
         snapshot 0.9 proper_time proper_length] := by
  refine ⟨fun v rest h => ?_, fun v rest h0 h1 => ?_, ?_⟩
  · rw [scripted_run, if_neg h]
  · rw [scripted_run, if_pos ⟨h0, h1⟩]
  · rw [scripted_run, if_pos (by norm_num), scripted_run, if_neg (by norm_num),
      scripted_run, if_neg (by norm_num), scripted_run, if_pos (by norm_num),
      scripted_run]

/-- Witness for C2: `1.5` is discarded, `0.3` is sampled. -/
theorem scripted_mode_filters_and_orders_witness :
    scripted_run [(1.5:ℝ)] = scripted_run [] ∧
    scripted_run [(0.3:ℝ)]
      = [snapshot 0.3 proper_time proper_length] := by
  constructor
  · exact scripted_mode_filters_and_orders.1 1.5 [] (by norm_num)
  · rw [scripted_mode_filters_and_orders.2.1 0.3 [] (by norm_num) (by norm_num)]
    rw [scripted_run]

end QSIS
